import Mathlib

/-!
Verification of the `line_file_catcher` media capture-and-replication pipeline.

The definitions below are a shallow embedding of the Go source:
* `src/internal/media/media.go` (`MediaStore`, `SaveMedia`, `updateStats`,
  `uploadToCloudAsync`, `GetCloudStats`, `WaitForAll`),
* `src/internal/utils` (`GenerateUniqueFilename`, `GetContentType`,
  `GetDateString`, `ratelimiter.go`),
* `src/internal/cloud/drive/drive.go` (`DriveStats`, `UploadFile`).

Modelling conventions:
* Byte streams are `List Nat` (each element a byte value `< 256`).
* The local filesystem is an association list `path -> content`; the head
  entry shadows older ones, matching last-write-wins lookup.
* I/O nondeterminism (directory creation, random source, file creation,
  copy, remote calls) is supplied through explicit environment records,
  one Boolean/field per fallible operation of the Go code.
* Wall-clock time is an explicit argument: a moment carries both its
  Unix-millisecond value and its calendar components, exactly the two
  projections the Go code takes from `time.Now()`.
* Goroutine bodies are modelled as pure state transformers; `WaitForAll`
  sequentially drains the pending task list, which is the linearization
  guaranteed by the `sync.WaitGroup` join barrier.
-/

/-! ## Statistics (`media.go`: `Stats`) -/

structure Stats where
  imageCount : Nat
  videoCount : Nat
  audioCount : Nat
  fileCount : Nat
  totalBytes : Nat
  deriving DecidableEq, Repr

def Stats.init : Stats :=
  { imageCount := 0, videoCount := 0, audioCount := 0, fileCount := 0, totalBytes := 0 }

/-- Embeds `media.go` `updateStats`: adds `bytes` to `TotalBytes` unconditionally, then
switches on the media type; unknown types fall through the switch. -/
def updateStats (s : Stats) (mediaType : String) (bytes : Nat) : Stats :=
  let s1 := { s with totalBytes := s.totalBytes + bytes }
  if mediaType = "image" then { s1 with imageCount := s1.imageCount + 1 }
  else if mediaType = "video" then { s1 with videoCount := s1.videoCount + 1 }
  else if mediaType = "audio" then { s1 with audioCount := s1.audioCount + 1 }
  else if mediaType = "file" then { s1 with fileCount := s1.fileCount + 1 }
  else s1

/-- Spec-side view: the kind-counter of `s` selected by `kind` (0 for unknown kinds). -/
def kindCounter (s : Stats) (kind : String) : Nat :=
  if kind = "image" then s.imageCount
  else if kind = "video" then s.videoCount
  else if kind = "audio" then s.audioCount
  else if kind = "file" then s.fileCount
  else 0

/-! ## Content types and filenames (`utils`) -/

/-- Embeds `utils.GetContentType`: maps a MIME string to a file extension,
defaulting to `".bin"`. -/
def getContentType (contentType : String) : String :=
  if contentType = "image/jpeg" then ".jpg"
  else if contentType = "image/png" then ".png"
  else if contentType = "image/gif" then ".gif"
  else if contentType = "video/mp4" then ".mp4"
  else if contentType = "video/3gpp" then ".3gp"
  else if contentType = "audio/mp4" ∨ contentType = "audio/mpeg" ∨ contentType = "audio/mp3"
    then ".mp3"
  else ".bin"

/-- The recognized content types of the `switch` in `utils.GetContentType`. -/
def recognizedContentTypes : List String :=
  ["image/jpeg", "image/png", "image/gif", "video/mp4", "video/3gpp",
   "audio/mp4", "audio/mpeg", "audio/mp3"]

/-- Lowercase hex digit for a nibble, as produced by Go `encoding/hex`. -/
def hexDigit (n : Nat) : Char :=
  if n < 10 then Char.ofNat (48 + n) else Char.ofNat (97 + (n - 10))

/-- Embeds `hex.EncodeToString`: two lowercase hex digits per byte, high nibble first. -/
def hexEncodeChars : List Nat → List Char
  | [] => []
  | b :: bs => hexDigit (b / 16) :: hexDigit (b % 16) :: hexEncodeChars bs

def hexEncode (bs : List Nat) : String :=
  String.mk (hexEncodeChars bs)

def isHexChar (c : Char) : Bool :=
  ('0' ≤ c && c ≤ '9') || ('a' ≤ c && c ≤ 'f')

/-- The extension normalization step of `utils.GenerateUniqueFilename`:
`if extension != "" && extension[0] != '.' { extension = "." + extension }`.
Go compares byte 0; for UTF-8 the first byte equals `'.'` exactly when the
first character does, so the check is modelled on the first character. -/
def normalizeExtension (extension : String) : String :=
  if extension ≠ "" ∧ extension.data.head? ≠ some '.' then "." ++ extension else extension

/-- Embeds `utils.GenerateUniqueFilename` (success path): composes
`pfx_timestampMillis_randomHex{ext}`.  The random bytes come from the
caller-supplied random source; failure of `crypto/rand` is modelled by the
`randOk` flag of the save environment. -/
def generateUniqueFilename (pfx extension : String) (timestampMillis : Nat)
    (randomBytes : List Nat) : String :=
  pfx ++ "_" ++ toString timestampMillis ++ "_" ++ hexEncode randomBytes
    ++ normalizeExtension extension

/-- Zero-padding to two digits, as in Go time layout `01`/`02`. -/
def pad2 (n : Nat) : String :=
  if n < 10 then "0" ++ toString n else toString n

/-- Zero-padding to four digits, as in Go time layout `2006`. -/
def pad4 (n : Nat) : String :=
  if n < 10 then "000" ++ toString n
  else if n < 100 then "00" ++ toString n
  else if n < 1000 then "0" ++ toString n
  else toString n

/-- A moment of wall-clock time, carrying exactly the projections the Go code
uses: Unix milliseconds (`UnixNano()/Millisecond`) and calendar components
(`Format("2006-01-02")`). -/
structure Moment where
  unixMillis : Nat
  year : Nat
  month : Nat
  day : Nat
  deriving DecidableEq, Repr

/-- Embeds `utils.GetDateString`: the current date formatted `YYYY-MM-DD`. -/
def getDateString (t : Moment) : String :=
  pad4 t.year ++ "-" ++ pad2 t.month ++ "-" ++ pad2 t.day

/-! ## Local filesystem model -/

abbrev Fs : Type := List (String × List Nat)

def fsLookup (fs : Fs) (p : String) : Option (List Nat) :=
  match fs with
  | [] => none
  | e :: rest => if e.1 = p then some e.2 else fsLookup rest p

def fsWrite (fs : Fs) (p : String) (content : List Nat) : Fs :=
  (p, content) :: fs

/-! ## The media store (`media.go`: `MediaStore`) -/

/-- A pending replication task: the local path and the remote folder,
as captured by the goroutine spawned in `uploadToCloudAsync`. -/
abbrev UploadTask : Type := String × String

/-- Embeds `drive.go` `DriveStats`, restricted to the counter fields.  The
wall-clock fields (`LastUploadTime`, `TotalUploadTime`, `AverageUploadTime`)
are real-time measurements and are not modelled; `FolderCreatedCount` belongs
to `CreateFolder`, which is abstracted by the upload environment. -/
structure DriveStats where
  totalUploaded : Nat
  uploadCount : Nat
  failedUploads : Nat
  retryCount : Nat
  deriving DecidableEq, Repr

def DriveStats.init : DriveStats :=
  { totalUploaded := 0, uploadCount := 0, failedUploads := 0, retryCount := 0 }

/-- Embeds `media.go` `MediaStore`.  `cloudEnabled` models `cloudStore != nil`;
`pendingUploads` are the tasks whose goroutines have been spawned (registered
on `uploadWg`) but not yet joined; `callbacks` is the per-file callback
registry (callbacks are identified by opaque numeric ids). -/
structure MediaStore where
  storageDir : String
  driveFolder : String
  driveRetryCount : Nat
  cloudEnabled : Bool
  stats : Stats
  cloudStats : DriveStats
  pendingUploads : List UploadTask
  callbacks : List (String × Nat)
  deriving DecidableEq, Repr

/-- Embeds `media.go` `NewMediaStore`: cloud storage is attached only when
`cfg.DriveEnabled` holds and `driveService.Initialize()` succeeds
(`initOk`); otherwise backup is disabled for the lifetime of the store. -/
def newMediaStore (storageDir driveFolder : String) (retryCount : Nat)
    (driveEnabled initOk : Bool) : MediaStore :=
  { storageDir, driveFolder, driveRetryCount := retryCount,
    cloudEnabled := driveEnabled && initOk,
    stats := Stats.init, cloudStats := DriveStats.init,
    pendingUploads := [], callbacks := [] }

/-- Embeds `media.go` `uploadToCloudAsync`: no-op when cloud storage is not
configured; otherwise registers one task on the wait group.  The remote
folder is `filepath.Join(cfg.DriveFolder, folderPath)`. -/
def uploadToCloudAsync (ms : MediaStore) (filePath folderPath : String) : MediaStore :=
  if ms.cloudEnabled then
    { ms with pendingUploads :=
        ms.pendingUploads ++ [(filePath, ms.driveFolder ++ "/" ++ folderPath)] }
  else ms

/-- Outcomes of the fallible local I/O operations inside `SaveMedia`, one
flag per Go call site: `cfg.GetMediaDir` (`MkdirAll`), `rand.Read` inside
`GenerateUniqueFilename`, `os.Create`, and `io.Copy`.  `copiedBytes` is the
number of payload bytes that reached the file before a failing copy. -/
structure SaveEnv where
  mkdirOk : Bool
  randOk : Bool
  createOk : Bool
  copyOk : Bool
  copiedBytes : Nat
  deriving DecidableEq, Repr

/-- The inputs of one `SaveMedia` call: the LINE message type, the reported
content type, the payload stream, the current time, and the bytes drawn from
the random source. -/
structure SaveInput where
  messageType : String
  contentType : String
  payload : List Nat
  now : Moment
  randomBytes : List Nat
  deriving DecidableEq, Repr

inductive SaveResult where
  | ok (path : String) (ms : MediaStore) (fs : Fs)
  | err (ms : MediaStore) (fs : Fs)
  deriving DecidableEq

/-- Embeds `media.go` `SaveMedia`.  Mirrors the Go control flow:
1. `GetDateString`, `GetMediaDir` (directory creation may fail);
2. `GetContentType`, `GenerateUniqueFilename` (random source may fail);
3. `filepath.Join(storageDir, filename)`;
4. `os.Create` — note: `os.Create` is open with `O_CREATE|O_TRUNC`, so an
   existing file of the same name is silently truncated, never an error;
5. `io.Copy` (may fail after writing a prefix of the payload);
6. `updateStats` with the bytes written, then `uploadToCloudAsync`.
Stats are only touched after a fully successful copy. -/
def saveMedia (ms : MediaStore) (fs : Fs) (env : SaveEnv) (inp : SaveInput) : SaveResult :=
  let dateStr := getDateString inp.now
  if ¬env.mkdirOk then SaveResult.err ms fs else
  let storageDir := ms.storageDir ++ "/" ++ dateStr
  let extension := getContentType inp.contentType
  if ¬env.randOk then SaveResult.err ms fs else
  let filename := generateUniqueFilename inp.messageType extension inp.now.unixMillis
    inp.randomBytes
  let filePath := storageDir ++ "/" ++ filename
  if ¬env.createOk then SaveResult.err ms fs else
  let fs1 := fsWrite fs filePath []
  if ¬env.copyOk then
    SaveResult.err ms (fsWrite fs1 filePath (inp.payload.take env.copiedBytes))
  else
  let bytesWritten := inp.payload.length
  let fs2 := fsWrite fs1 filePath inp.payload
  let ms1 := { ms with stats := updateStats ms.stats inp.messageType bytesWritten }
  let ms2 := uploadToCloudAsync ms1 filePath dateStr
  SaveResult.ok filePath ms2 fs2

/-- The path produced by a successful `saveMedia` call, for restating results. -/
def savedPath (ms : MediaStore) (inp : SaveInput) : String :=
  ms.storageDir ++ "/" ++ getDateString inp.now ++ "/"
    ++ generateUniqueFilename inp.messageType (getContentType inp.contentType)
        inp.now.unixMillis inp.randomBytes

/-- Embeds `media.go` `GetCloudStats`: `{"enabled": false}` when no cloud store is
attached, otherwise the provider's stats bag extended with `enabled: true`. -/
structure CloudStatsView where
  enabled : Bool
  provider : Option DriveStats
  deriving DecidableEq, Repr

def getCloudStats (ms : MediaStore) : CloudStatsView :=
  if ms.cloudEnabled then { enabled := true, provider := some ms.cloudStats }
  else { enabled := false, provider := none }

/-! ## Replication upload with retries (`drive.go`: `UploadFile`) -/

/-- Observable events of one `UploadFile` call: upload attempts (indexed by
the Go loop's `retryCount`), file re-opens, and backoff sleeps (in seconds). -/
inductive DriveEvent where
  | attempt (n : Nat)
  | reopen (n : Nat)
  | sleep (seconds : Nat)
  deriving DecidableEq, Repr

def isAttempt : DriveEvent → Bool
  | DriveEvent.attempt _ => true
  | _ => false

def countAttempts (tr : List DriveEvent) : Nat :=
  tr.countP isAttempt

/-- Result of the retry loop of `UploadFile` (lines 232-261):
`success` breaks out of the loop, `failure` is the exhausted-retries return
(which increments `FailedUploads`), `reopenErr` is the early return when
re-opening the local file for a retry fails (which increments nothing). -/
inductive UploadOutcome where
  | success (st : DriveStats) (tr : List DriveEvent)
  | failure (st : DriveStats) (tr : List DriveEvent)
  | reopenErr (st : DriveStats) (tr : List DriveEvent)
  deriving DecidableEq, Repr

/-- The retry loop of `UploadFile`:
`for retryCount = 0; retryCount <= cfg.DriveRetryCount; retryCount++`.
`left` is the number of iterations remaining after the current one
(initially `cfg.DriveRetryCount`), `idx` the current `retryCount`.
Iterations with `idx > 0` first bump `stats.RetryCount`, re-open the local
file (early error return on failure), and sleep `2^idx` seconds, then
attempt the remote create.  A failing attempt with `left = 0` is the
exhausted case: `FailedUploads` is incremented and an error returned. -/
def uploadLoop (fails reopenOk : Nat → Bool) :
    Nat → Nat → DriveStats → List DriveEvent → UploadOutcome
  | 0, idx, st, tr =>
    if idx = 0 then
      if fails idx then
        UploadOutcome.failure { st with failedUploads := st.failedUploads + 1 }
          (tr ++ [DriveEvent.attempt idx])
      else UploadOutcome.success st (tr ++ [DriveEvent.attempt idx])
    else
      let st1 := { st with retryCount := st.retryCount + 1 }
      if reopenOk idx then
        if fails idx then
          UploadOutcome.failure { st1 with failedUploads := st1.failedUploads + 1 }
            (tr ++ [DriveEvent.reopen idx, DriveEvent.sleep (2 ^ idx), DriveEvent.attempt idx])
        else
          UploadOutcome.success st1
            (tr ++ [DriveEvent.reopen idx, DriveEvent.sleep (2 ^ idx), DriveEvent.attempt idx])
      else UploadOutcome.reopenErr st1 tr
  | left + 1, idx, st, tr =>
    if idx = 0 then
      if fails idx then
        uploadLoop fails reopenOk left (idx + 1) st (tr ++ [DriveEvent.attempt idx])
      else UploadOutcome.success st (tr ++ [DriveEvent.attempt idx])
    else
      let st1 := { st with retryCount := st.retryCount + 1 }
      if reopenOk idx then
        if fails idx then
          uploadLoop fails reopenOk left (idx + 1) st1
            (tr ++ [DriveEvent.reopen idx, DriveEvent.sleep (2 ^ idx), DriveEvent.attempt idx])
        else
          UploadOutcome.success st1
            (tr ++ [DriveEvent.reopen idx, DriveEvent.sleep (2 ^ idx), DriveEvent.attempt idx])
      else UploadOutcome.reopenErr st1 tr

/-- Environment of one `UploadFile` call: outcomes of `CreateFolder`
(`folderOk`), the initial `os.Open` (`openOk`), `Stat` (`statOk`), the
remote create at each loop index (`fails`), re-opens for retries
(`reopenOk`), the local file size, and the remote file id the provider
returns on success. -/
structure UploadEnv where
  folderOk : Bool
  openOk : Bool
  statOk : Bool
  fileSize : Nat
  fails : Nat → Bool
  reopenOk : Nat → Bool
  fileID : String

inductive UploadResult where
  | ok (fileID : String) (st : DriveStats)
  | err (st : DriveStats)
  deriving DecidableEq, Repr

/-- Embeds `drive.go` `UploadFile`.  The pre-loop steps (`CreateFolder`, `os.Open`,
`Stat`) return errors without touching the upload counters; the loop is
`uploadLoop`; a successful loop exit updates `UploadCount` and
`TotalUploaded` (the wall-clock latency fields are not modelled). -/
def uploadFile (env : UploadEnv) (maxRetry : Nat) (st : DriveStats) :
    UploadResult × List DriveEvent :=
  if env.folderOk = false then (UploadResult.err st, [])
  else if env.openOk = false then (UploadResult.err st, [])
  else if env.statOk = false then (UploadResult.err st, [])
  else
    match uploadLoop env.fails env.reopenOk maxRetry 0 st [] with
    | UploadOutcome.success st1 tr =>
        (UploadResult.ok env.fileID
          { st1 with uploadCount := st1.uploadCount + 1,
                     totalUploaded := st1.totalUploaded + env.fileSize }, tr)
    | UploadOutcome.failure st1 tr => (UploadResult.err st1, tr)
    | UploadOutcome.reopenErr st1 tr => (UploadResult.err st1, tr)

/-- The event trace of an `UploadFile` call whose every attempt fails and
whose every re-open succeeds: attempt 0, then for each retry `k = 1..n` a
re-open, a `2^k`-second sleep, and attempt `k`. -/
def failTail : Nat → Nat → List DriveEvent
  | _, 0 => []
  | idx, left + 1 =>
      DriveEvent.reopen idx :: DriveEvent.sleep (2 ^ idx) :: DriveEvent.attempt idx ::
        failTail (idx + 1) left

def allFailTrace (maxRetry : Nat) : List DriveEvent :=
  DriveEvent.attempt 0 :: failTail 1 maxRetry

/-! ## Draining the upload queue (`media.go`: `WaitForAll`) -/

/-- The body of the goroutine spawned by `uploadToCloudAsync`: call
`UploadFile`; on error just log (the error is absorbed), either way the
wait-group slot is released.  Only the drive stats change. -/
def runUploadTask (env : UploadEnv) (maxRetry : Nat) (st : DriveStats) : DriveStats :=
  match (uploadFile env maxRetry st).1 with
  | UploadResult.ok _ st1 => st1
  | UploadResult.err st1 => st1

/-- Drains a list of pending tasks in order; `envs i` is the remote
environment seen by the `i`-th task (counting from `i0`). -/
def runUploads (envs : Nat → UploadEnv) (maxRetry : Nat) :
    List UploadTask → Nat → DriveStats → DriveStats
  | [], _, st => st
  | _t :: rest, i, st => runUploads envs maxRetry rest (i + 1) (runUploadTask (envs i) maxRetry st)

/-- Embeds `media.go` `WaitForAll` (= `WaitForDownloads` then `WaitForUploads`):
joins the wait group, i.e. blocks until every spawned upload goroutine has
run to completion.  Modelled as draining the pending list. -/
def waitForAll (ms : MediaStore) (envs : Nat → UploadEnv) : MediaStore :=
  { ms with cloudStats := runUploads envs ms.driveRetryCount ms.pendingUploads 0 ms.cloudStats,
            pendingUploads := [] }

/-! ## Per-file completion callbacks -/

/-- Modelled from the spec: `RegisterUploadCallback` is invoked by the webhook
handler (`h.mediaStore.RegisterUploadCallback(filePath, fn)`) but its
definition is absent from `src/internal/media/media.go`; spec section 4.6
says the orchestrator `exposes registerUploadCallback(path, fn)` registering a
per-file callback.  Callbacks are identified by opaque numeric ids. -/
def registerUploadCallback (ms : MediaStore) (path : String) (cb : Nat) : MediaStore :=
  { ms with callbacks := ms.callbacks ++ [(path, cb)] }

def lookupCallback (callbacks : List (String × Nat)) (path : String) : Option Nat :=
  match callbacks with
  | [] => none
  | e :: rest => if e.1 = path then some e.2 else lookupCallback rest path

/-- Modelled from the spec: the replication worker's callback invocation is
absent from `src/internal/media/media.go`; spec sections 4.4 and 4.6 say the
worker notifies the per-file callback once replication completes or
permanently fails, with the remote identifier/link on success.  Each task's
terminal outcome yields one invocation record `(callbackId, some remoteID)`
or `(callbackId, none)` when a callback is registered for its path. -/
def runUploadsNotify (callbacks : List (String × Nat)) (envs : Nat → UploadEnv)
    (maxRetry : Nat) :
    List UploadTask → Nat → DriveStats → DriveStats × List (Nat × Option String)
  | [], _, st => (st, [])
  | t :: rest, i, st =>
      let r := (uploadFile (envs i) maxRetry st).1
      let st1 := match r with
        | UploadResult.ok _ s => s
        | UploadResult.err s => s
      let link : Option String := match r with
        | UploadResult.ok id _ => some id
        | UploadResult.err _ => none
      let invs := match lookupCallback callbacks t.1 with
        | some cb => [(cb, link)]
        | none => []
      let res := runUploadsNotify callbacks envs maxRetry rest (i + 1) st1
      (res.1, invs ++ res.2)

/-- Modelled from the spec: `waitForAll` with callback delivery (section 4.6). -/
def waitForAllNotify (ms : MediaStore) (envs : Nat → UploadEnv) :
    MediaStore × List (Nat × Option String) :=
  let res := runUploadsNotify ms.callbacks envs ms.driveRetryCount ms.pendingUploads 0
    ms.cloudStats
  ({ ms with cloudStats := res.1, pendingUploads := [] }, res.2)

/-! ## Admission gate (`utils/ratelimiter.go`) -/

/-- Embeds `utils.RateLimiter`.  Times are in nanoseconds (any fixed unit works);
`lastRefill` is an absolute instant. -/
structure RateLimiter where
  rate : Nat
  interval : Nat
  tokens : Nat
  lastRefill : Nat
  deriving DecidableEq, Repr

/-- Embeds `utils.NewRateLimiter` at creation instant `now`. -/
def newRateLimiter (rate interval now : Nat) : RateLimiter :=
  { rate, interval, tokens := rate, lastRefill := now }

/-- The refill phase shared by `Allow` and `RemainingTokens`: full reset when
a whole interval has elapsed, otherwise proportional top-up
(`int(float64(elapsed)/float64(interval)*float64(rate))`, modelled as floor
division) capped at `rate`; `lastRefill` advances only when tokens were
actually added. -/
def RateLimiter.refill (rl : RateLimiter) (now : Nat) : RateLimiter :=
  let elapsed := now - rl.lastRefill
  if elapsed ≥ rl.interval then { rl with tokens := rl.rate, lastRefill := now }
  else if 0 < elapsed then
    let newTokens := elapsed * rl.rate / rl.interval
    if 0 < newTokens then
      { rl with tokens := min (rl.tokens + newTokens) rl.rate, lastRefill := now }
    else rl
  else rl

/-- Embeds `utils.RateLimiter.Allow` at instant `now`: refill, then consume one
token if any remains. -/
def RateLimiter.allow (rl : RateLimiter) (now : Nat) : Bool × RateLimiter :=
  let rl1 := rl.refill now
  if 0 < rl1.tokens then (true, { rl1 with tokens := rl1.tokens - 1 })
  else (false, rl1)

/-- Spec-side formula for the token count right after the refill phase:
reset to `rate` on a full elapsed interval, otherwise proportional top-up
capped at `rate`. -/
def specRefillTokens (rl : RateLimiter) (now : Nat) : Nat :=
  let elapsed := now - rl.lastRefill
  if elapsed ≥ rl.interval then rl.rate
  else min (rl.tokens + elapsed * rl.rate / rl.interval) rl.rate

/-! ## Result extractors (spec-side views of `SaveResult`) -/

def saveOk : SaveResult → Bool
  | SaveResult.ok _ _ _ => true
  | SaveResult.err _ _ => false

def saveMs : SaveResult → MediaStore
  | SaveResult.ok _ ms _ => ms
  | SaveResult.err ms _ => ms

def saveFs : SaveResult → Fs
  | SaveResult.ok _ _ fs => fs
  | SaveResult.err _ fs => fs

def savePathOpt : SaveResult → Option String
  | SaveResult.ok p _ _ => some p
  | SaveResult.err _ _ => none

/-! ## Helper lemmas -/

lemma stats_uploadToCloudAsync (ms : MediaStore) (p d : String) :
    (uploadToCloudAsync ms p d).stats = ms.stats := by
  simp only [uploadToCloudAsync]
  split <;> rfl

lemma cloudEnabled_uploadToCloudAsync (ms : MediaStore) (p d : String) :
    (uploadToCloudAsync ms p d).cloudEnabled = ms.cloudEnabled := by
  simp only [uploadToCloudAsync]
  split <;> rfl

lemma uploadToCloudAsync_disabled (ms : MediaStore) (p d : String)
    (h : ms.cloudEnabled = false) : uploadToCloudAsync ms p d = ms := by
  simp [uploadToCloudAsync, h]

lemma totalBytes_updateStats (s : Stats) (k : String) (b : Nat) :
    (updateStats s k b).totalBytes = s.totalBytes + b := by
  simp only [updateStats]
  split_ifs <;> rfl

/-- Case analysis of `saveMedia`: either all four local I/O steps succeed and
the call returns the canonical path with stats updated and one replication
task enqueued, or the call returns an error with the media store unchanged. -/
lemma saveMedia_cases (ms : MediaStore) (fs : Fs) (env : SaveEnv) (inp : SaveInput) :
    (env.mkdirOk = true ∧ env.randOk = true ∧ env.createOk = true ∧ env.copyOk = true ∧
      saveMedia ms fs env inp = SaveResult.ok (savedPath ms inp)
        (uploadToCloudAsync
          { ms with stats := updateStats ms.stats inp.messageType inp.payload.length }
          (savedPath ms inp) (getDateString inp.now))
        (fsWrite (fsWrite fs (savedPath ms inp) []) (savedPath ms inp) inp.payload))
    ∨ ((env.mkdirOk = false ∨ env.randOk = false ∨ env.createOk = false ∨ env.copyOk = false)
        ∧ ∃ fs1, saveMedia ms fs env inp = SaveResult.err ms fs1) := by
  simp only [saveMedia, savedPath, generateUniqueFilename]
  split_ifs with h1 h2 h3 h4 <;>
    first
      | (left; refine ⟨by simp_all, by simp_all, by simp_all, by simp_all, rfl⟩)
      | (right; exact ⟨by simp_all, _, rfl⟩)

/-! ## C1: stats monotonicity of `saveMedia` -/

/-- C1: for every successful `saveMedia` call with kind in
{image, video, audio, file}, exactly the kind-counter matching the kind
increases by exactly 1 and `totalBytes` increases by exactly the number of
bytes written for the payload; for every `saveMedia` call that returns an
error, no counter and not `totalBytes` changes. -/
theorem saveMedia_stats_invariant (ms : MediaStore) (fs : Fs) (env : SaveEnv)
    (inp : SaveInput)
    (hkind : inp.messageType = "image" ∨ inp.messageType = "video" ∨
      inp.messageType = "audio" ∨ inp.messageType = "file") :
    (∀ path ms1 fs1, saveMedia ms fs env inp = SaveResult.ok path ms1 fs1 →
      kindCounter ms1.stats inp.messageType = kindCounter ms.stats inp.messageType + 1
        ∧ (∀ k, (k = "image" ∨ k = "video" ∨ k = "audio" ∨ k = "file") →
            k ≠ inp.messageType → kindCounter ms1.stats k = kindCounter ms.stats k)
        ∧ ms1.stats.totalBytes = ms.stats.totalBytes + inp.payload.length)
    ∧ (∀ ms1 fs1, saveMedia ms fs env inp = SaveResult.err ms1 fs1 →
        ms1.stats = ms.stats) := by
  rcases saveMedia_cases ms fs env inp with ⟨_, _, _, _, hok⟩ | ⟨_, fs2, herr⟩
  · constructor
    · intro path ms1 fsr h
      rw [hok] at h
      simp only [SaveResult.ok.injEq] at h
      obtain ⟨-, rfl, -⟩ := h
      rw [stats_uploadToCloudAsync]
      refine ⟨?_, ?_, ?_⟩
      · rcases hkind with hk | hk | hk | hk <;> rw [hk] <;>
          simp [updateStats, kindCounter]
      · intro k hk' hne
        rcases hkind with hk | hk | hk | hk <;>
          rcases hk' with h' | h' | h' | h' <;>
            simp_all [updateStats, kindCounter]
      · simp [totalBytes_updateStats]
    · intro ms1 fsr h
      rw [hok] at h
      simp at h
  · constructor
    · intro path ms1 fsr h
      rw [herr] at h
      simp at h
    · intro ms1 fsr h
      rw [herr] at h
      simp only [SaveResult.err.injEq] at h
      obtain ⟨rfl, -⟩ := h
      rfl

theorem saveMedia_stats_invariant_witness :
    (∀ path ms1 fs1,
      saveMedia (newMediaStore "st" "df" 3 false false) []
          ⟨true, true, true, true, 0⟩ ⟨"image", "image/png", [7, 8], ⟨5, 2025, 1, 2⟩,
            [0, 0, 0, 0, 0, 0, 0, 0]⟩ = SaveResult.ok path ms1 fs1 →
      kindCounter ms1.stats "image" = kindCounter (newMediaStore "st" "df" 3 false false).stats
          "image" + 1
        ∧ (∀ k, (k = "image" ∨ k = "video" ∨ k = "audio" ∨ k = "file") →
            k ≠ "image" → kindCounter ms1.stats k
              = kindCounter (newMediaStore "st" "df" 3 false false).stats k)
        ∧ ms1.stats.totalBytes = (newMediaStore "st" "df" 3 false false).stats.totalBytes
            + ([7, 8] : List Nat).length)
    ∧ (∀ ms1 fs1,
        saveMedia (newMediaStore "st" "df" 3 false false) []
            ⟨true, true, true, true, 0⟩ ⟨"image", "image/png", [7, 8], ⟨5, 2025, 1, 2⟩,
              [0, 0, 0, 0, 0, 0, 0, 0]⟩ = SaveResult.err ms1 fs1 →
        ms1.stats = (newMediaStore "st" "df" 3 false false).stats) :=
  saveMedia_stats_invariant (newMediaStore "st" "df" 3 false false) []
    ⟨true, true, true, true, 0⟩ ⟨"image", "image/png", [7, 8], ⟨5, 2025, 1, 2⟩,
      [0, 0, 0, 0, 0, 0, 0, 0]⟩ (Or.inl rfl)

/-! ## C10: unknown kinds are stored but counted in no kind-counter -/

/-- C10: a `saveMedia` call whose kind is outside {image, video, audio, file}
is not rejected by the core: under successful local I/O it stores the file
and returns its path, and any successful call increments `totalBytes` by the
bytes written while leaving all four kind-counters unchanged. -/
theorem saveMedia_unknownKind (ms : MediaStore) (fs : Fs) (env : SaveEnv) (inp : SaveInput)
    (hkind : inp.messageType ≠ "image" ∧ inp.messageType ≠ "video" ∧
      inp.messageType ≠ "audio" ∧ inp.messageType ≠ "file") :
    (env.mkdirOk = true → env.randOk = true → env.createOk = true → env.copyOk = true →
      saveOk (saveMedia ms fs env inp) = true
        ∧ savePathOpt (saveMedia ms fs env inp) = some (savedPath ms inp)
        ∧ fsLookup (saveFs (saveMedia ms fs env inp)) (savedPath ms inp) = some inp.payload)
    ∧ (∀ path ms1 fs1, saveMedia ms fs env inp = SaveResult.ok path ms1 fs1 →
        ms1.stats.totalBytes = ms.stats.totalBytes + inp.payload.length
          ∧ ms1.stats.imageCount = ms.stats.imageCount
          ∧ ms1.stats.videoCount = ms.stats.videoCount
          ∧ ms1.stats.audioCount = ms.stats.audioCount
          ∧ ms1.stats.fileCount = ms.stats.fileCount) := by
  obtain ⟨hk1, hk2, hk3, hk4⟩ := hkind
  rcases saveMedia_cases ms fs env inp with ⟨_, _, _, _, hok⟩ | ⟨hb, fs2, herr⟩
  · constructor
    · intro _ _ _ _
      rw [hok]
      refine ⟨rfl, rfl, ?_⟩
      simp [saveFs, fsWrite, fsLookup]
    · intro path ms1 fsr h
      rw [hok] at h
      simp only [SaveResult.ok.injEq] at h
      obtain ⟨-, rfl, -⟩ := h
      rw [stats_uploadToCloudAsync]
      simp [updateStats, hk1, hk2, hk3, hk4]
  · constructor
    · intro e1 e2 e3 e4
      simp [e1, e2, e3, e4] at hb
    · intro path ms1 fsr h
      rw [herr] at h
      simp at h

theorem saveMedia_unknownKind_witness :
    (true = true → true = true → true = true → true = true →
      saveOk (saveMedia (newMediaStore "st" "df" 3 false false) []
          ⟨true, true, true, true, 0⟩
          ⟨"sticker", "image/png", [7], ⟨5, 2025, 1, 2⟩, [0, 0, 0, 0, 0, 0, 0, 0]⟩) = true
        ∧ savePathOpt (saveMedia (newMediaStore "st" "df" 3 false false) []
            ⟨true, true, true, true, 0⟩
            ⟨"sticker", "image/png", [7], ⟨5, 2025, 1, 2⟩, [0, 0, 0, 0, 0, 0, 0, 0]⟩)
          = some (savedPath (newMediaStore "st" "df" 3 false false)
              ⟨"sticker", "image/png", [7], ⟨5, 2025, 1, 2⟩, [0, 0, 0, 0, 0, 0, 0, 0]⟩)
        ∧ fsLookup (saveFs (saveMedia (newMediaStore "st" "df" 3 false false) []
            ⟨true, true, true, true, 0⟩
            ⟨"sticker", "image/png", [7], ⟨5, 2025, 1, 2⟩, [0, 0, 0, 0, 0, 0, 0, 0]⟩))
            (savedPath (newMediaStore "st" "df" 3 false false)
              ⟨"sticker", "image/png", [7], ⟨5, 2025, 1, 2⟩, [0, 0, 0, 0, 0, 0, 0, 0]⟩)
          = some [7])
    ∧ (∀ path ms1 fs1, saveMedia (newMediaStore "st" "df" 3 false false) []
          ⟨true, true, true, true, 0⟩
          ⟨"sticker", "image/png", [7], ⟨5, 2025, 1, 2⟩, [0, 0, 0, 0, 0, 0, 0, 0]⟩
          = SaveResult.ok path ms1 fs1 →
        ms1.stats.totalBytes = (newMediaStore "st" "df" 3 false false).stats.totalBytes
            + ([7] : List Nat).length
          ∧ ms1.stats.imageCount = (newMediaStore "st" "df" 3 false false).stats.imageCount
          ∧ ms1.stats.videoCount = (newMediaStore "st" "df" 3 false false).stats.videoCount
          ∧ ms1.stats.audioCount = (newMediaStore "st" "df" 3 false false).stats.audioCount
          ∧ ms1.stats.fileCount = (newMediaStore "st" "df" 3 false false).stats.fileCount) :=
  saveMedia_unknownKind (newMediaStore "st" "df" 3 false false) []
    ⟨true, true, true, true, 0⟩
    ⟨"sticker", "image/png", [7], ⟨5, 2025, 1, 2⟩, [0, 0, 0, 0, 0, 0, 0, 0]⟩
    ⟨by decide, by decide, by decide, by decide⟩

/-! ## C3: collision behavior of the local store -/

/-- C3 counterexample: the generated name already exists on disk (content
`[1,2,3]`), yet `saveMedia` succeeds and silently replaces the content with
the new payload `[9]` — `os.Create` truncates instead of surfacing an
error. -/
theorem saveMedia_collision_counterexample :
    fsLookup [("st/2025-01-02/image_5_0000000000000000.png", [1, 2, 3])]
        "st/2025-01-02/image_5_0000000000000000.png" = some [1, 2, 3]
    ∧ saveOk (saveMedia (newMediaStore "st" "df" 3 false false)
        [("st/2025-01-02/image_5_0000000000000000.png", [1, 2, 3])]
        ⟨true, true, true, true, 0⟩
        ⟨"image", "image/png", [9], ⟨5, 2025, 1, 2⟩, [0, 0, 0, 0, 0, 0, 0, 0]⟩) = true
    ∧ savePathOpt (saveMedia (newMediaStore "st" "df" 3 false false)
        [("st/2025-01-02/image_5_0000000000000000.png", [1, 2, 3])]
        ⟨true, true, true, true, 0⟩
        ⟨"image", "image/png", [9], ⟨5, 2025, 1, 2⟩, [0, 0, 0, 0, 0, 0, 0, 0]⟩)
      = some "st/2025-01-02/image_5_0000000000000000.png"
    ∧ fsLookup (saveFs (saveMedia (newMediaStore "st" "df" 3 false false)
        [("st/2025-01-02/image_5_0000000000000000.png", [1, 2, 3])]
        ⟨true, true, true, true, 0⟩
        ⟨"image", "image/png", [9], ⟨5, 2025, 1, 2⟩, [0, 0, 0, 0, 0, 0, 0, 0]⟩))
        "st/2025-01-02/image_5_0000000000000000.png" = some [9] := by
  refine ⟨by decide, by decide, by decide, by decide⟩

/-- C3 amended: the local file is opened with create-or-truncate semantics
(`os.Create`).  When the four local I/O steps succeed, a store whose
generated name collides with an existing file still succeeds and silently
replaces the old content with the payload; the collision never surfaces as
an error. -/
theorem saveMedia_collision_truncates (ms : MediaStore) (fs : Fs) (env : SaveEnv)
    (inp : SaveInput) (old : List Nat)
    (h1 : env.mkdirOk = true) (h2 : env.randOk = true) (h3 : env.createOk = true)
    (h4 : env.copyOk = true)
    (hcol : fsLookup fs (savedPath ms inp) = some old) :
    saveOk (saveMedia ms fs env inp) = true
      ∧ savePathOpt (saveMedia ms fs env inp) = some (savedPath ms inp)
      ∧ fsLookup (saveFs (saveMedia ms fs env inp)) (savedPath ms inp) = some inp.payload := by
  rcases saveMedia_cases ms fs env inp with ⟨_, _, _, _, hok⟩ | ⟨hb, fs2, herr⟩
  · rw [hok]
    refine ⟨rfl, rfl, ?_⟩
    simp [saveFs, fsWrite, fsLookup]
  · simp [h1, h2, h3, h4] at hb

theorem saveMedia_collision_truncates_witness :
    saveOk (saveMedia (newMediaStore "st" "df" 3 false false)
        [("st/2025-01-02/image_5_0000000000000000.png", [1, 2])]
        ⟨true, true, true, true, 0⟩
        ⟨"image", "image/png", [4, 5], ⟨5, 2025, 1, 2⟩, [0, 0, 0, 0, 0, 0, 0, 0]⟩) = true
      ∧ savePathOpt (saveMedia (newMediaStore "st" "df" 3 false false)
          [("st/2025-01-02/image_5_0000000000000000.png", [1, 2])]
          ⟨true, true, true, true, 0⟩
          ⟨"image", "image/png", [4, 5], ⟨5, 2025, 1, 2⟩, [0, 0, 0, 0, 0, 0, 0, 0]⟩)
        = some (savedPath (newMediaStore "st" "df" 3 false false)
            ⟨"image", "image/png", [4, 5], ⟨5, 2025, 1, 2⟩, [0, 0, 0, 0, 0, 0, 0, 0]⟩)
      ∧ fsLookup (saveFs (saveMedia (newMediaStore "st" "df" 3 false false)
          [("st/2025-01-02/image_5_0000000000000000.png", [1, 2])]
          ⟨true, true, true, true, 0⟩
          ⟨"image", "image/png", [4, 5], ⟨5, 2025, 1, 2⟩, [0, 0, 0, 0, 0, 0, 0, 0]⟩))
          (savedPath (newMediaStore "st" "df" 3 false false)
            ⟨"image", "image/png", [4, 5], ⟨5, 2025, 1, 2⟩, [0, 0, 0, 0, 0, 0, 0, 0]⟩)
        = some [4, 5] :=
  saveMedia_collision_truncates (newMediaStore "st" "df" 3 false false)
    [("st/2025-01-02/image_5_0000000000000000.png", [1, 2])]
    ⟨true, true, true, true, 0⟩
    ⟨"image", "image/png", [4, 5], ⟨5, 2025, 1, 2⟩, [0, 0, 0, 0, 0, 0, 0, 0]⟩
    [1, 2] rfl rfl rfl rfl (by decide)

/-! ## C5: shape of the stored path -/

lemma hexEncodeChars_length (bs : List Nat) :
    (hexEncodeChars bs).length = 2 * bs.length := by
  induction bs with
  | nil => rfl
  | cons b rest ih =>
      simp [hexEncodeChars, ih]
      omega

lemma hexDigit_isHex (n : Nat) (h : n < 16) : isHexChar (hexDigit n) = true := by
  interval_cases n <;> decide

lemma hexEncodeChars_hex (bs : List Nat) (hb : ∀ b ∈ bs, b < 256) :
    ∀ c ∈ hexEncodeChars bs, isHexChar c = true := by
  induction bs with
  | nil => simp [hexEncodeChars]
  | cons b rest ih =>
      intro c hc
      have hblt : b < 256 := hb b (by simp)
      simp only [hexEncodeChars, List.mem_cons] at hc
      rcases hc with rfl | rfl | hc
      · exact hexDigit_isHex _ (by omega)
      · exact hexDigit_isHex _ (Nat.mod_lt b (by norm_num))
      · exact ih (fun x hx => hb x (by simp [hx])) c hc

lemma normalizeExtension_dot (e : String) :
    normalizeExtension e = "" ∨ (normalizeExtension e).data.head? = some '.' := by
  unfold normalizeExtension
  split_ifs with h
  · right
    simp
  · push_neg at h
    by_cases he : e = ""
    · left
      exact he
    · right
      exact h he

/-- C5: every successful store returns the path
`{storageRoot}/{YYYY-MM-DD}/{kind}_{unixMillis}_{randomHex}{ext}` where the
date is formatted from the calendar components of the store time, the
random suffix is 16 lowercase hex characters encoding the 8 random bytes,
and the extension is normalized to begin with a dot when non-empty. -/
theorem saveMedia_path_format (ms : MediaStore) (fs : Fs) (env : SaveEnv) (inp : SaveInput)
    (path : String) (ms1 : MediaStore) (fs1 : Fs)
    (hok : saveMedia ms fs env inp = SaveResult.ok path ms1 fs1)
    (hlen : inp.randomBytes.length = 8)
    (hbytes : ∀ b ∈ inp.randomBytes, b < 256) :
    path = ms.storageDir ++ "/" ++ getDateString inp.now ++ "/" ++ inp.messageType ++ "_"
        ++ toString inp.now.unixMillis ++ "_" ++ hexEncode inp.randomBytes
        ++ normalizeExtension (getContentType inp.contentType)
      ∧ getDateString inp.now
          = pad4 inp.now.year ++ "-" ++ pad2 inp.now.month ++ "-" ++ pad2 inp.now.day
      ∧ (hexEncode inp.randomBytes).length = 16
      ∧ (∀ c ∈ (hexEncode inp.randomBytes).data, isHexChar c = true)
      ∧ (∀ e : String, normalizeExtension e = ""
          ∨ (normalizeExtension e).data.head? = some '.') := by
  refine ⟨?_, rfl, ?_, ?_, normalizeExtension_dot⟩
  · rcases saveMedia_cases ms fs env inp with ⟨_, _, _, _, hok'⟩ | ⟨_, fs2, herr⟩
    · rw [hok'] at hok
      simp only [SaveResult.ok.injEq] at hok
      rw [← hok.1]
      simp [savedPath, generateUniqueFilename, String.append_assoc]
    · rw [herr] at hok
      simp at hok
  · rw [hexEncode, String.length_mk, hexEncodeChars_length, hlen]
  · exact fun c hc => hexEncodeChars_hex inp.randomBytes hbytes c hc

theorem saveMedia_path_format_witness :
    "st/2025-01-02/image_5_0000000000000000.png"
        = (newMediaStore "st" "df" 3 false false).storageDir ++ "/"
          ++ getDateString (⟨5, 2025, 1, 2⟩ : Moment) ++ "/" ++ "image" ++ "_"
          ++ toString (5 : Nat) ++ "_" ++ hexEncode [0, 0, 0, 0, 0, 0, 0, 0]
          ++ normalizeExtension (getContentType "image/png")
      ∧ getDateString (⟨5, 2025, 1, 2⟩ : Moment) = pad4 2025 ++ "-" ++ pad2 1 ++ "-" ++ pad2 2
      ∧ (hexEncode [0, 0, 0, 0, 0, 0, 0, 0]).length = 16
      ∧ (∀ c ∈ (hexEncode [0, 0, 0, 0, 0, 0, 0, 0]).data, isHexChar c = true)
      ∧ (∀ e : String, normalizeExtension e = ""
          ∨ (normalizeExtension e).data.head? = some '.') :=
  saveMedia_path_format (newMediaStore "st" "df" 3 false false) []
    ⟨true, true, true, true, 0⟩
    ⟨"image", "image/png", [9], ⟨5, 2025, 1, 2⟩, [0, 0, 0, 0, 0, 0, 0, 0]⟩
    "st/2025-01-02/image_5_0000000000000000.png"
    (saveMs (saveMedia (newMediaStore "st" "df" 3 false false) []
      ⟨true, true, true, true, 0⟩
      ⟨"image", "image/png", [9], ⟨5, 2025, 1, 2⟩, [0, 0, 0, 0, 0, 0, 0, 0]⟩))
    (saveFs (saveMedia (newMediaStore "st" "df" 3 false false) []
      ⟨true, true, true, true, 0⟩
      ⟨"image", "image/png", [9], ⟨5, 2025, 1, 2⟩, [0, 0, 0, 0, 0, 0, 0, 0]⟩))
    (by decide) rfl (by decide)

/-! ## C7: disabled replication is a complete no-op -/

/-- C7: when the backup destination is not configured (`DriveEnabled` false)
or its initialization fails at startup, the store is created with cloud
storage detached; then, for the process lifetime, `saveMedia` never enqueues
an upload and never re-enables the cloud, still succeeds under successful
local I/O, and `getCloudStats` reports `enabled = false`. -/
theorem cloudDisabled_noop (storageDir driveFolder : String) (retryCount : Nat)
    (driveEnabled initOk : Bool)
    (hdis : driveEnabled = false ∨ initOk = false) :
    (newMediaStore storageDir driveFolder retryCount driveEnabled initOk).cloudEnabled = false
      ∧ (getCloudStats
          (newMediaStore storageDir driveFolder retryCount driveEnabled initOk)).enabled
          = false
      ∧ (∀ ms : MediaStore, ms.cloudEnabled = false → ∀ fs env inp,
          (saveMs (saveMedia ms fs env inp)).cloudEnabled = false
            ∧ (saveMs (saveMedia ms fs env inp)).pendingUploads = ms.pendingUploads
            ∧ (getCloudStats (saveMs (saveMedia ms fs env inp))).enabled = false)
      ∧ (∀ ms : MediaStore, ms.cloudEnabled = false → ∀ fs env inp,
          env.mkdirOk = true → env.randOk = true → env.createOk = true → env.copyOk = true →
          saveOk (saveMedia ms fs env inp) = true
            ∧ savePathOpt (saveMedia ms fs env inp) = some (savedPath ms inp)) := by
  have hnew :
      (newMediaStore storageDir driveFolder retryCount driveEnabled initOk).cloudEnabled
        = false := by
    rcases hdis with h | h <;> simp [newMediaStore, h]
  have hsave : ∀ ms : MediaStore, ms.cloudEnabled = false → ∀ fs env inp,
      (saveMs (saveMedia ms fs env inp)).cloudEnabled = false
        ∧ (saveMs (saveMedia ms fs env inp)).pendingUploads = ms.pendingUploads := by
    intro ms hms fs env inp
    rcases saveMedia_cases ms fs env inp with ⟨_, _, _, _, hok⟩ | ⟨_, fs2, herr⟩
    · rw [hok]
      simp only [saveMs]
      rw [uploadToCloudAsync_disabled _ _ _ (by simpa using hms)]
      exact ⟨hms, rfl⟩
    · rw [herr]
      exact ⟨hms, rfl⟩
  refine ⟨hnew, by simp [getCloudStats, hnew], ?_, ?_⟩
  · intro ms hms fs env inp
    obtain ⟨h1, h2⟩ := hsave ms hms fs env inp
    exact ⟨h1, h2, by simp [getCloudStats, h1]⟩
  · intro ms hms fs env inp e1 e2 e3 e4
    rcases saveMedia_cases ms fs env inp with ⟨_, _, _, _, hok⟩ | ⟨hb, fs2, herr⟩
    · rw [hok]
      exact ⟨rfl, rfl⟩
    · simp [e1, e2, e3, e4] at hb

theorem cloudDisabled_noop_witness :
    (newMediaStore "st" "df" 3 true false).cloudEnabled = false
      ∧ (getCloudStats (newMediaStore "st" "df" 3 true false)).enabled = false
      ∧ (∀ ms : MediaStore, ms.cloudEnabled = false → ∀ fs env inp,
          (saveMs (saveMedia ms fs env inp)).cloudEnabled = false
            ∧ (saveMs (saveMedia ms fs env inp)).pendingUploads = ms.pendingUploads
            ∧ (getCloudStats (saveMs (saveMedia ms fs env inp))).enabled = false)
      ∧ (∀ ms : MediaStore, ms.cloudEnabled = false → ∀ fs env inp,
          env.mkdirOk = true → env.randOk = true → env.createOk = true → env.copyOk = true →
          saveOk (saveMedia ms fs env inp) = true
            ∧ savePathOpt (saveMedia ms fs env inp) = some (savedPath ms inp)) :=
  cloudDisabled_noop "st" "df" 3 true false (Or.inr rfl)

/-! ## C2: retry bound of `UploadFile` -/

lemma uploadLoop_allFail (fails reopenOk : Nat → Bool)
    (hf : ∀ n, fails n = true) (hr : ∀ n, reopenOk n = true) :
    ∀ (left idx : Nat) (st : DriveStats) (tr : List DriveEvent), 1 ≤ idx →
      uploadLoop fails reopenOk left idx st tr
        = UploadOutcome.failure
            { st with failedUploads := st.failedUploads + 1,
                      retryCount := st.retryCount + (left + 1) }
            (tr ++ failTail idx (left + 1)) := by
  intro left
  induction left with
  | zero =>
      intro idx st tr hidx
      have h0 : ¬idx = 0 := by omega
      simp [uploadLoop, h0, hf idx, hr idx, failTail]
  | succ l ih =>
      intro idx st tr hidx
      have h0 : ¬idx = 0 := by omega
      simp only [uploadLoop, h0, if_false, hf idx, hr idx, if_true]
      rw [ih (idx + 1) _ _ (by omega)]
      simp [failTail, Nat.add_assoc]
      omega

lemma uploadLoop_allFail_top (fails reopenOk : Nat → Bool)
    (hf : ∀ n, fails n = true) (hr : ∀ n, reopenOk n = true)
    (maxRetry : Nat) (st : DriveStats) :
    uploadLoop fails reopenOk maxRetry 0 st []
      = UploadOutcome.failure
          { st with failedUploads := st.failedUploads + 1,
                    retryCount := st.retryCount + maxRetry }
          (allFailTrace maxRetry) := by
  cases maxRetry with
  | zero => simp [uploadLoop, allFailTrace, failTail, hf 0]
  | succ m =>
      simp only [uploadLoop, if_pos rfl, hf 0, if_true]
      rw [uploadLoop_allFail fails reopenOk hf hr m 1 st _ (le_refl 1)]
      simp [allFailTrace]

lemma countAttempts_failTail : ∀ (left idx : Nat), countAttempts (failTail idx left) = left := by
  intro left
  induction left with
  | zero => intro idx; rfl
  | succ l ih =>
      intro idx
      have h := ih (idx + 1)
      simp only [failTail, countAttempts, List.countP_cons] at *
      simp [isAttempt] at *
      omega

lemma countAttempts_allFailTrace (n : Nat) : countAttempts (allFailTrace n) = n + 1 := by
  have h := countAttempts_failTail n 1
  simp only [allFailTrace, countAttempts, List.countP_cons] at *
  simp [isAttempt] at *
  omega

lemma failTail_decomp : ∀ (left idx k : Nat), idx ≤ k → k < idx + left →
    ∃ pre post, failTail idx left
      = pre ++ DriveEvent.reopen k :: DriveEvent.sleep (2 ^ k)
          :: DriveEvent.attempt k :: post := by
  intro left
  induction left with
  | zero => intro idx k h1 h2; omega
  | succ l ih =>
      intro idx k h1 h2
      by_cases hk : k = idx
      · subst hk
        exact ⟨[], failTail (k + 1) l, rfl⟩
      · obtain ⟨pre, post, hp⟩ := ih (idx + 1) k (by omega) (by omega)
        refine ⟨DriveEvent.reopen idx :: DriveEvent.sleep (2 ^ idx)
          :: DriveEvent.attempt idx :: pre, post, ?_⟩
        simp [failTail, hp]

/-- C2: against a destination that fails every attempt (with all re-opens
succeeding), `UploadFile` makes exactly `maxRetries + 1` attempts — each
retry `k` preceded by a fresh re-open and a `2^k`-second backoff sleep —
then increments `FailedUploads` exactly once (and `RetryCount` by
`maxRetries`, leaving `UploadCount` and `TotalUploaded` untouched), returns
an error, and makes no further attempts. -/
theorem uploadFile_retryBound (env : UploadEnv) (maxRetry : Nat) (st : DriveStats)
    (hfolder : env.folderOk = true) (hopen : env.openOk = true) (hstat : env.statOk = true)
    (hf : ∀ n, env.fails n = true) (hr : ∀ n, env.reopenOk n = true) :
    uploadFile env maxRetry st
      = (UploadResult.err { st with failedUploads := st.failedUploads + 1,
                                    retryCount := st.retryCount + maxRetry },
         allFailTrace maxRetry)
      ∧ countAttempts (allFailTrace maxRetry) = maxRetry + 1
      ∧ (∀ k, 1 ≤ k → k ≤ maxRetry → ∃ pre post,
          allFailTrace maxRetry
            = pre ++ DriveEvent.reopen k :: DriveEvent.sleep (2 ^ k)
                :: DriveEvent.attempt k :: post) := by
  refine ⟨?_, countAttempts_allFailTrace maxRetry, ?_⟩
  · rw [uploadFile]
    simp only [hfolder, hopen, hstat]
    rw [uploadLoop_allFail_top env.fails env.reopenOk hf hr maxRetry st]
    simp
  · intro k hk1 hk2
    obtain ⟨pre, post, hp⟩ := failTail_decomp maxRetry 1 k hk1 (by omega)
    exact ⟨DriveEvent.attempt 0 :: pre, post, by simp [allFailTrace, hp]⟩

theorem uploadFile_retryBound_witness :
    uploadFile ⟨true, true, true, 0, fun _ => true, fun _ => true, "id"⟩ 2 DriveStats.init
        = (UploadResult.err { DriveStats.init with
              failedUploads := DriveStats.init.failedUploads + 1,
              retryCount := DriveStats.init.retryCount + 2 },
           allFailTrace 2)
      ∧ countAttempts (allFailTrace 2) = 2 + 1
      ∧ (∀ k, 1 ≤ k → k ≤ 2 → ∃ pre post,
          allFailTrace 2
            = pre ++ DriveEvent.reopen k :: DriveEvent.sleep (2 ^ k)
                :: DriveEvent.attempt k :: post) :=
  uploadFile_retryBound ⟨true, true, true, 0, fun _ => true, fun _ => true, "id"⟩ 2
    DriveStats.init rfl rfl rfl (fun _ => rfl) (fun _ => rfl)

/-! ## C9: drain correctness of `waitForAll` -/

lemma countAttempts_append (a b : List DriveEvent) :
    countAttempts (a ++ b) = countAttempts a + countAttempts b := by
  simp [countAttempts, List.countP_append]

lemma countAttempts_nil : countAttempts [] = 0 := rfl

lemma countAttempts_att (n : Nat) : countAttempts [DriveEvent.attempt n] = 1 := by
  simp [countAttempts, List.countP_cons, isAttempt]

lemma countAttempts_rsa (n m : Nat) :
    countAttempts [DriveEvent.reopen n, DriveEvent.sleep m, DriveEvent.attempt n] = 1 := by
  simp [countAttempts, List.countP_cons, isAttempt]

/-- What the retry loop can do to the counters: a success leaves
`uploadCount` and `failedUploads` untouched, the exhausted-retries failure
increments `failedUploads` once after exactly `left + 1` attempts, and the
reopen-error return touches neither counter after at most `left` further
attempts. -/
lemma uploadLoop_outcome (fails reopenOk : Nat → Bool) :
    ∀ (left idx : Nat) (st : DriveStats) (tr : List DriveEvent),
      (match uploadLoop fails reopenOk left idx st tr with
        | UploadOutcome.success st1 _ =>
            st1.uploadCount = st.uploadCount ∧ st1.failedUploads = st.failedUploads
        | UploadOutcome.failure st1 tr1 =>
            st1.uploadCount = st.uploadCount ∧ st1.failedUploads = st.failedUploads + 1
              ∧ countAttempts tr1 = countAttempts tr + (left + 1)
        | UploadOutcome.reopenErr st1 tr1 =>
            st1.uploadCount = st.uploadCount ∧ st1.failedUploads = st.failedUploads
              ∧ countAttempts tr1 ≤ countAttempts tr + left) := by
  intro left
  induction left with
  | zero =>
      intro idx st tr
      by_cases h0 : idx = 0
      · subst h0
        by_cases hfo : fails 0 <;>
          simp [uploadLoop, hfo, countAttempts_append, countAttempts_att]
      · by_cases hro : reopenOk idx
        · by_cases hfo : fails idx <;>
            simp [uploadLoop, h0, hro, hfo, countAttempts_append, countAttempts_rsa]
        · simp [uploadLoop, h0, hro]
  | succ l ih =>
      intro idx st tr
      by_cases h0 : idx = 0
      · subst h0
        by_cases hfo : fails 0
        · simp only [uploadLoop, if_pos rfl, hfo, if_true]
          have h := ih 1 st (tr ++ [DriveEvent.attempt 0])
          cases hul : uploadLoop fails reopenOk l 1 st (tr ++ [DriveEvent.attempt 0]) with
          | success st1 tr1 =>
              rw [hul] at h
              exact h
          | failure st1 tr1 =>
              rw [hul] at h
              refine ⟨h.1, h.2.1, ?_⟩
              have hc := h.2.2
              rw [countAttempts_append, countAttempts_att] at hc
              omega
          | reopenErr st1 tr1 =>
              rw [hul] at h
              refine ⟨h.1, h.2.1, ?_⟩
              have hc := h.2.2
              rw [countAttempts_append, countAttempts_att] at hc
              omega
        · simp [uploadLoop, hfo]
      · by_cases hro : reopenOk idx
        · by_cases hfo : fails idx
          · simp only [uploadLoop, h0, if_false, hro, if_true, hfo]
            have h := ih (idx + 1) { st with retryCount := st.retryCount + 1 }
              (tr ++ [DriveEvent.reopen idx, DriveEvent.sleep (2 ^ idx),
                DriveEvent.attempt idx])
            cases hul : uploadLoop fails reopenOk l (idx + 1)
                { st with retryCount := st.retryCount + 1 }
                (tr ++ [DriveEvent.reopen idx, DriveEvent.sleep (2 ^ idx),
                  DriveEvent.attempt idx]) with
            | success st1 tr1 =>
                rw [hul] at h
                exact h
            | failure st1 tr1 =>
                rw [hul] at h
                refine ⟨h.1, h.2.1, ?_⟩
                have hc := h.2.2
                rw [countAttempts_append, countAttempts_rsa] at hc
                omega
            | reopenErr st1 tr1 =>
                rw [hul] at h
                refine ⟨h.1, h.2.1, ?_⟩
                have hc := h.2.2
                rw [countAttempts_append, countAttempts_rsa] at hc
                omega
          · simp [uploadLoop, h0, hro, hfo]
        · simp [uploadLoop, h0, hro]

/-- C9 counterexample: one replication task is enqueued; the remote folder
creation fails, so `UploadFile` returns an error before any upload attempt.
`waitForAll` returns with the queue drained, yet neither the upload-count
statistic nor the failed-upload statistic has increased — the task neither
"succeeded" nor was counted as a permanent failure, refuting the claimed
dichotomy. -/
theorem waitForAll_claim_counterexample :
    (⟨"st", "df", 3, true, Stats.init, DriveStats.init, [("p", "df/d")], []⟩ :
        MediaStore).pendingUploads.length = 1
    ∧ (waitForAll
        (⟨"st", "df", 3, true, Stats.init, DriveStats.init, [("p", "df/d")], []⟩ : MediaStore)
        (fun _ => ⟨false, true, true, 0, fun _ => true, fun _ => true, "id"⟩)).pendingUploads
        = []
    ∧ (waitForAll
        (⟨"st", "df", 3, true, Stats.init, DriveStats.init, [("p", "df/d")], []⟩ : MediaStore)
        (fun _ => ⟨false, true, true, 0, fun _ => true, fun _ => true, "id"⟩)).cloudStats.uploadCount
        = (⟨"st", "df", 3, true, Stats.init, DriveStats.init, [("p", "df/d")], []⟩ :
            MediaStore).cloudStats.uploadCount
    ∧ (waitForAll
        (⟨"st", "df", 3, true, Stats.init, DriveStats.init, [("p", "df/d")], []⟩ : MediaStore)
        (fun _ => ⟨false, true, true, 0, fun _ => true, fun _ => true, "id"⟩)).cloudStats.failedUploads
        = (⟨"st", "df", 3, true, Stats.init, DriveStats.init, [("p", "df/d")], []⟩ :
            MediaStore).cloudStats.failedUploads := by
  refine ⟨rfl, rfl, rfl, rfl⟩

/-- C9 amended: after `waitForAll` returns, no task is left pending, and each
drained task has reached a terminal outcome: either the upload succeeded
(the upload-count statistic increased by exactly one) or it failed with an
error — in which case the failed-upload statistic increased (by one) if and
only if the task exhausted all `maxRetries + 1` upload attempts; failures
before or between attempts (folder creation, open, stat, re-open) increment
neither statistic. -/
theorem waitForAll_drains (ms : MediaStore) (envs : Nat → UploadEnv) :
    (waitForAll ms envs).pendingUploads = []
    ∧ (∀ (env : UploadEnv) (mr : Nat) (st : DriveStats),
        (match uploadFile env mr st with
          | (UploadResult.ok _ st1, _) =>
              st1.uploadCount = st.uploadCount + 1 ∧ st1.failedUploads = st.failedUploads
          | (UploadResult.err st1, tr) =>
              st1.uploadCount = st.uploadCount
                ∧ (st1.failedUploads = st.failedUploads + 1 ↔ countAttempts tr = mr + 1))) := by
  refine ⟨rfl, ?_⟩
  intro env mr st
  rw [uploadFile]
  by_cases hfo : env.folderOk = false
  · simp only [hfo, if_true]
    exact ⟨by simp, by rw [countAttempts_nil]; omega⟩
  · by_cases hop : env.openOk = false
    · simp only [hfo, hop, if_false, if_true]
      exact ⟨by simp, by rw [countAttempts_nil]; omega⟩
    · by_cases hst : env.statOk = false
      · simp only [hfo, hop, hst, if_false, if_true]
        exact ⟨by simp, by rw [countAttempts_nil]; omega⟩
      · simp only [hfo, hop, hst, if_false]
        have h := uploadLoop_outcome env.fails env.reopenOk mr 0 st []
        cases hul : uploadLoop env.fails env.reopenOk mr 0 st [] with
        | success st1 tr1 =>
            rw [hul] at h
            exact ⟨by rw [h.1], h.2⟩
        | failure st1 tr1 =>
            rw [hul] at h
            have hc := h.2.2
            rw [countAttempts_nil] at hc
            exact ⟨h.1, by rw [h.2.1, hc]; omega⟩
        | reopenErr st1 tr1 =>
            rw [hul] at h
            have hc := h.2.2
            rw [countAttempts_nil] at hc
            exact ⟨h.1, by rw [h.2.1]; omega⟩

/-! ## C6: per-file completion callbacks -/

lemma lookupCallback_append_new (cbs : List (String × Nat)) (p : String) (c : Nat)
    (h : lookupCallback cbs p = none) : lookupCallback (cbs ++ [(p, c)]) p = some c := by
  induction cbs with
  | nil => simp [lookupCallback]
  | cons e rest ih =>
      simp only [lookupCallback, List.cons_append] at h ⊢
      split_ifs at h ⊢ with he
      · exact ih h

lemma runUploadsNotify_invokes (cbs : List (String × Nat)) (envs : Nat → UploadEnv)
    (mr : Nat) :
    ∀ (tasks : List UploadTask) (i : Nat) (st : DriveStats) (t : UploadTask) (cb : Nat),
      t ∈ tasks → lookupCallback cbs t.1 = some cb →
      ∃ r, (cb, r) ∈ (runUploadsNotify cbs envs mr tasks i st).2 := by
  intro tasks
  induction tasks with
  | nil =>
      intro i st t cb ht
      cases ht
  | cons hd rest ih =>
      intro i st t cb ht hcb
      rcases List.mem_cons.mp ht with rfl | ht'
      · simp only [runUploadsNotify]
        rw [hcb]
        cases hres : (uploadFile (envs i) mr st).1 with
        | ok id st1 => exact ⟨some id, by simp⟩
        | err st1 => exact ⟨none, by simp⟩
      · simp only [runUploadsNotify]
        cases hres : (uploadFile (envs i) mr st).1 with
        | ok id st1 =>
            obtain ⟨r, hr⟩ := ih (i + 1) st1 t cb ht' hcb
            exact ⟨r, List.mem_append_right _ hr⟩
        | err st1 =>
            obtain ⟨r, hr⟩ := ih (i + 1) st1 t cb ht' hcb
            exact ⟨r, List.mem_append_right _ hr⟩

/-- C6 (spec-modelled): the orchestrator exposes `registerUploadCallback`,
which registers a per-file callback without disturbing the pending queue and
makes the callback retrievable for its path; and once the drain runs every
enqueued task to its terminal outcome, the callback registered for a task's
path is invoked — with `some remoteID` when replication completed, `none`
when it permanently failed. -/
theorem registerUploadCallback_notifies (ms : MediaStore) (envs : Nat → UploadEnv)
    (t : UploadTask) (cb : Nat)
    (ht : t ∈ ms.pendingUploads) (hcb : lookupCallback ms.callbacks t.1 = some cb) :
    (∃ r, (cb, r) ∈ (waitForAllNotify ms envs).2)
    ∧ (∀ (ms2 : MediaStore) (p : String) (c : Nat),
        (registerUploadCallback ms2 p c).pendingUploads = ms2.pendingUploads
          ∧ (registerUploadCallback ms2 p c).cloudEnabled = ms2.cloudEnabled
          ∧ (lookupCallback ms2.callbacks p = none →
              lookupCallback (registerUploadCallback ms2 p c).callbacks p = some c)) := by
  constructor
  · exact runUploadsNotify_invokes ms.callbacks envs ms.driveRetryCount ms.pendingUploads 0
      ms.cloudStats t cb ht hcb
  · intro ms2 p c
    exact ⟨rfl, rfl, fun h => lookupCallback_append_new ms2.callbacks p c h⟩

theorem registerUploadCallback_notifies_witness :
    (∃ r, (7, r) ∈ (waitForAllNotify
        (⟨"st", "df", 2, true, Stats.init, DriveStats.init, [("p", "df/d")], [("p", 7)]⟩ :
          MediaStore)
        (fun _ => ⟨true, true, true, 3, fun _ => false, fun _ => true, "fileid"⟩)).2)
    ∧ (∀ (ms2 : MediaStore) (p : String) (c : Nat),
        (registerUploadCallback ms2 p c).pendingUploads = ms2.pendingUploads
          ∧ (registerUploadCallback ms2 p c).cloudEnabled = ms2.cloudEnabled
          ∧ (lookupCallback ms2.callbacks p = none →
              lookupCallback (registerUploadCallback ms2 p c).callbacks p = some c)) :=
  registerUploadCallback_notifies
    (⟨"st", "df", 2, true, Stats.init, DriveStats.init, [("p", "df/d")], [("p", 7)]⟩ :
      MediaStore)
    (fun _ => ⟨true, true, true, 3, fun _ => false, fun _ => true, "fileid"⟩)
    ("p", "df/d") 7 (by decide) (by decide)

/-! ## C4: the admission gate is a token bucket -/

lemma refill_tokens_eq_spec (rl : RateLimiter) (now : Nat) (h : rl.tokens ≤ rl.rate) :
    (rl.refill now).tokens = specRefillTokens rl now := by
  simp only [RateLimiter.refill, specRefillTokens]
  split_ifs with h1 h2 h3 <;> simp_all [Nat.min_def] <;> split_ifs <;> omega

lemma spec_le_rate (rl : RateLimiter) (now : Nat) :
    specRefillTokens rl now ≤ rl.rate := by
  simp only [specRefillTokens]
  split_ifs <;> simp [Nat.min_def] <;> split_ifs <;> omega

/-- C4: `Allow` behaves as a token bucket — on each call the token count is
first reset to `rate` when a full interval has elapsed since the last
refill, otherwise topped up proportionally to the elapsed fraction of the
interval and capped at `rate`; the call is allowed (consuming one token)
exactly when a token remains after the refill.  In particular, with rate 2
and a 1-second interval, three instantaneous calls yield
[true, true, false] and a call one full interval later yields true. -/
theorem rateLimiter_tokenBucket :
    (∀ (rl : RateLimiter) (now : Nat), rl.tokens ≤ rl.rate →
      (rl.allow now).1 = decide (0 < specRefillTokens rl now)
        ∧ (rl.allow now).2.tokens
            = specRefillTokens rl now - (if 0 < specRefillTokens rl now then 1 else 0)
        ∧ (rl.allow now).2.tokens ≤ rl.rate)
    ∧ ((newRateLimiter 2 1000000000 0).allow 0).1 = true
    ∧ ((((newRateLimiter 2 1000000000 0).allow 0).2.allow 0)).1 = true
    ∧ (((((newRateLimiter 2 1000000000 0).allow 0).2.allow 0)).2.allow 0).1 = false
    ∧ ((((((newRateLimiter 2 1000000000 0).allow 0).2.allow 0)).2.allow 0).2.allow
        1000000000).1 = true := by
  refine ⟨?_, by decide, by decide, by decide, by decide⟩
  intro rl now h
  have hs := refill_tokens_eq_spec rl now h
  have hle := spec_le_rate rl now
  simp only [RateLimiter.allow]
  by_cases hp : 0 < (rl.refill now).tokens
  · rw [hs] at hp
    simp [hs, hp]
    omega
  · rw [hs] at hp
    simp [hs, hp]
    omega

theorem rateLimiter_tokenBucket_witness :
    ((⟨2, 10, 1, 0⟩ : RateLimiter).allow 5).1
        = decide (0 < specRefillTokens (⟨2, 10, 1, 0⟩ : RateLimiter) 5)
      ∧ ((⟨2, 10, 1, 0⟩ : RateLimiter).allow 5).2.tokens
          = specRefillTokens (⟨2, 10, 1, 0⟩ : RateLimiter) 5
            - (if 0 < specRefillTokens (⟨2, 10, 1, 0⟩ : RateLimiter) 5 then 1 else 0)
      ∧ ((⟨2, 10, 1, 0⟩ : RateLimiter).allow 5).2.tokens
          ≤ (⟨2, 10, 1, 0⟩ : RateLimiter).rate :=
  rateLimiter_tokenBucket.1 ⟨2, 10, 1, 0⟩ 5 (by decide)

/-! ## C8: total content-type fallback -/

/-- C8: the content-type mapping is a total function that never yields an
empty extension, and every content type outside the fixed recognized set
maps to the generic binary extension `".bin"`. -/
theorem getContentType_total_fallback (s : String) :
    getContentType s ≠ "" ∧ (s ∉ recognizedContentTypes → getContentType s = ".bin") := by
  constructor
  · unfold getContentType
    split_ifs <;> decide
  · intro hs
    simp [recognizedContentTypes] at hs
    unfold getContentType
    split_ifs <;> simp_all

theorem getContentType_total_fallback_witness :
    getContentType "application/pdf" ≠ ""
      ∧ ("application/pdf" ∉ recognizedContentTypes
          → getContentType "application/pdf" = ".bin") :=
  getContentType_total_fallback "application/pdf"
